import Mathlib

/-!
Verification of the `slit_lamp_camera` recording orchestration subsystem.

This file gives a shallow embedding, in Lean, of the Python modules
`storage.py` (removable-storage target resolver), `camera.py` (capture
process controller), `gpio_io.py` (latching-button abstraction) and
`recorder.py` / `cli.py` (recording service state machine), and proves
the specification claims about them.

Modelling conventions:
- Filesystem paths, labels and device names are `String`s; `pathlib.Path`
  joining (`p / name`) is `joinPath`, and `Path` equality / prefix tests
  are performed on the (assumed normalised) path strings.
- String comparison, upper/lower-casing and prefix tests are implemented
  over `List Char` code points (`charsLt`, `pyUpper`, `pyLower`,
  `strStarts`), matching Python semantics on the ASCII data the program
  handles; the builtin `String` operations are avoided because they do
  not reduce in the kernel.
- Effectful collaborators (the `lsblk` call, directory writability
  probes, `os.path.exists`, process spawning) are oracles passed in as
  explicit parameters; OS processes are identified by natural numbers
  allocated by a counter, and the set of live capture processes is
  tracked in an explicit `World`.
- `list.sort(key=score, reverse=True)` is embedded as a stable
  insertion sort, descending by the score tuple, which computes the same
  (unique) stable descending permutation that Python's sort does.
-/

namespace SlitLampCam

/-! ## String primitives (code-point semantics, kernel-reducible) -/

/-- Lexicographic strict comparison of code-point lists, as Python compares
strings. -/
def charsLt : List Char → List Char → Bool
  | _, [] => false
  | [], _ :: _ => true
  | a :: as, b :: bs =>
    if a.toNat < b.toNat then true
    else if b.toNat < a.toNat then false
    else charsLt as bs

/-- Python string `<`. -/
def strLt (a b : String) : Bool := charsLt a.data b.data

/-- ASCII upper-casing of one character, as Python `str.upper` acts on the
ASCII labels this program handles. -/
def pyUpperChar (c : Char) : Char :=
  if 97 ≤ c.toNat ∧ c.toNat ≤ 122 then Char.ofNat (c.toNat - 32) else c

/-- Python `str.upper` (ASCII fragment). -/
def pyUpper (s : String) : String := String.mk (s.data.map pyUpperChar)

/-- ASCII lower-casing of one character. -/
def pyLowerChar (c : Char) : Char :=
  if 65 ≤ c.toNat ∧ c.toNat ≤ 90 then Char.ofNat (c.toNat + 32) else c

/-- Python `str.lower` (ASCII fragment). -/
def pyLower (s : String) : String := String.mk (s.data.map pyLowerChar)

/-- Python `str.startswith`. -/
def strStarts (s p : String) : Bool := p.data.isPrefixOf s.data

/-- Does the string end in a path separator? -/
def endsSlash (a : String) : Bool :=
  match a.data.getLast? with
  | some c => c == '/'
  | none => false

/-- `pathlib` `/` join on normalised path strings: `Path(a) / b`. -/
def joinPath (a b : String) : String :=
  if endsSlash a then a ++ b else a ++ "/" ++ b

/-- Python `a or b` for optional strings (`None` and `""` are falsy). -/
def pyOr (a b : Option String) : Option String :=
  match a with
  | some s => if s = "" then b else some s
  | none => b

/-- Python truthiness of an optional string. -/
def pyTruthy : Option String → Bool
  | some s => s ≠ ""
  | none => false

/-- `Path.with_suffix(suf)`: replace the extension of the final path
component (or append `suf` if the component has none). -/
def withSuffix (p suf : String) : String :=
  let rev := p.data.reverse
  match rev.dropWhile (fun c => !(c == '.' || c == '/')) with
  | '.' :: rest => String.mk rest.reverse ++ suf
  | _ => p ++ suf

theorem charsLt_irrefl (l : List Char) : charsLt l l = false := by
  induction l with
  | nil => rfl
  | cons a as ih => simp [charsLt, ih]

theorem charsLt_trans {a b c : List Char} (h1 : charsLt a b = true)
    (h2 : charsLt b c = true) : charsLt a c = true := by
  induction a generalizing b c with
  | nil =>
    cases c with
    | nil => cases b <;> simp [charsLt] at h1 h2
    | cons z zs => simp [charsLt]
  | cons x xs ih =>
    cases b with
    | nil => simp [charsLt] at h1
    | cons y ys =>
      cases c with
      | nil => simp [charsLt] at h2
      | cons z zs =>
        simp only [charsLt] at h1 h2 ⊢
        by_cases hxy : x.toNat < y.toNat <;> by_cases hyz : y.toNat < z.toNat <;>
            simp [hxy, hyz] at h1 h2 ⊢
        · omega
        · obtain ⟨h2a, -⟩ := h2
          left
          omega
        · obtain ⟨h1a, -⟩ := h1
          left
          omega
        · obtain ⟨h1a, h1b⟩ := h1
          obtain ⟨h2a, h2b⟩ := h2
          exact Or.inr ⟨by omega, ih h1b h2b⟩

theorem charsLt_eq {a b : List Char} (h1 : charsLt a b = false)
    (h2 : charsLt b a = false) : a = b := by
  induction a generalizing b with
  | nil =>
    cases b with
    | nil => rfl
    | cons y ys => simp [charsLt] at h1
  | cons x xs ih =>
    cases b with
    | nil => simp [charsLt] at h2
    | cons y ys =>
      simp only [charsLt] at h1 h2
      by_cases hxy : x.toNat < y.toNat <;> by_cases hyx : y.toNat < x.toNat <;>
          simp [hxy, hyx] at h1 h2
      have hc : x = y :=
        Char.ofNat_toNat x ▸ Char.ofNat_toNat y ▸ congrArg Char.ofNat (by omega)
      rw [hc, ih h1 h2]

theorem strLt_eq {a b : String} (h1 : strLt a b = false) (h2 : strLt b a = false) :
    a = b := by
  cases a
  cases b
  exact congrArg String.mk (charsLt_eq h1 h2)

/-! ## Score tuples and the stable descending sort -/

/-- The sort key computed by `score` inside `find_usb_mount_targets`:
`(preferred-label-flag, label text, mountpoint text)`. -/
structure ScoreT where
  pref : Nat
  label : String
  mount : String
deriving Repr, DecidableEq

/-- Python tuple `<` on score tuples (lexicographic). -/
def scoreLt (a b : ScoreT) : Bool :=
  if a.pref < b.pref then true
  else if b.pref < a.pref then false
  else if strLt a.label b.label then true
  else if strLt b.label a.label then false
  else strLt a.mount b.mount

theorem scoreLt_irrefl (a : ScoreT) : scoreLt a a = false := by
  simp [scoreLt, strLt, charsLt_irrefl]

theorem scoreLt_trans {a b c : ScoreT} (h1 : scoreLt a b = true)
    (h2 : scoreLt b c = true) : scoreLt a c = true := by
  unfold scoreLt at h1 h2 ⊢
  by_cases hp1 : a.pref < b.pref <;> by_cases hp2 : b.pref < c.pref <;>
      simp [hp1, hp2] at h1 h2 ⊢
  · omega
  · obtain ⟨h2a, -⟩ := h2
    left
    omega
  · obtain ⟨h1a, -⟩ := h1
    left
    omega
  · obtain ⟨h1a, h1b⟩ := h1
    obtain ⟨h2a, h2b⟩ := h2
    refine Or.inr ⟨by omega, ?_⟩
    by_cases hl1 : strLt a.label b.label = true <;>
        by_cases hl2 : strLt b.label c.label = true <;>
        simp [hl1, hl2] at h1b h2b ⊢
    · left
      exact charsLt_trans hl1 hl2
    · obtain ⟨h2c, -⟩ := h2b
      rw [strLt_eq (Bool.not_eq_true _ ▸ hl2) h2c] at hl1
      simp [hl1]
    · obtain ⟨h1c, -⟩ := h1b
      rw [← strLt_eq (Bool.not_eq_true _ ▸ hl1) h1c] at hl2
      simp [hl2]
    · obtain ⟨h1c, h1d⟩ := h1b
      obtain ⟨h2c, h2d⟩ := h2b
      have he : a.label = b.label := strLt_eq (Bool.not_eq_true _ ▸ hl1) h1c
      have he2 : b.label = c.label := strLt_eq (Bool.not_eq_true _ ▸ hl2) h2c
      rw [he, he2]
      simp [charsLt_irrefl, strLt, charsLt_trans h1d h2d]

theorem scoreLt_asymm {a b : ScoreT} (h : scoreLt a b = true) : scoreLt b a = false := by
  by_contra hc
  have hd := scoreLt_trans h (Bool.of_not_eq_false hc)
  rw [scoreLt_irrefl] at hd
  exact Bool.false_ne_true hd

/-- One step of the stable descending insertion sort: `x` is placed before
the first element whose key

 is strictly below `key x`, hence after every
earlier element with an equal key (stability). -/
def insDesc {α : Type} (key : α → ScoreT) (x : α) : List α → List α
  | [] => [x]
  | y :: ys => if scoreLt (key y) (key x) then x :: y :: ys else y :: insDesc key x ys

/-- Embedding of `candidates.sort(key=score, reverse=True)`: the stable
sort of the list, descending by key. -/
def sortDesc {α : Type} (key : α → ScoreT) (l : List α) : List α :=
  l.foldl (fun acc x => insDesc key x acc) []

theorem insDesc_perm {α : Type} (key : α → ScoreT) (x : α) (l : List α) :
    List.Perm (insDesc key x l) (x :: l) := by
  induction l with
  | nil => exact List.Perm.refl _
  | cons y ys ih =>
    by_cases h : scoreLt (key y) (key x) = true
    · simp [insDesc, h]
    · simp only [insDesc, if_neg h]
      exact (List.Perm.cons y ih).trans (List.Perm.swap x y ys)

theorem mem_insDesc {α : Type} {key : α → ScoreT} {x z : α} {l : List α}
    (h : z ∈ insDesc key x l) : z = x ∨ z ∈ l := by
  have hp := (insDesc_perm key x l).mem_iff.mp h
  simpa using hp

/-- Pairwise "earlier is not smaller" is preserved by descending insertion. -/
theorem insDesc_pairwise {α : Type} {key : α → ScoreT} {x : α} {l : List α}
    (h : List.Pairwise (fun a b => scoreLt (key a) (key b) = false) l) :
    List.Pairwise (fun a b => scoreLt (key a) (key b) = false) (insDesc key x l) := by
  induction l with
  | nil => simp [insDesc]
  | cons y ys ih =>
    rcases List.pairwise_cons.mp h with ⟨hy, hys⟩
    by_cases hlt : scoreLt (key y) (key x) = true
    · simp only [insDesc, hlt, if_true]
      refine List.pairwise_cons.mpr ⟨?_, h⟩
      intro z hz
      rcases List.mem_cons.mp hz with hz | hz
      · rw [hz]
        exact scoreLt_asymm hlt
      · by_contra hc
        have hxz := Bool.of_not_eq_false hc
        have hyz := scoreLt_trans hlt hxz
        rw [hy z hz] at hyz
        exact Bool.false_ne_true hyz
    · simp only [insDesc, if_neg hlt]
      refine List.pairwise_cons.mpr ⟨?_, ih hys⟩
      intro z hz
      rcases mem_insDesc hz with hz | hz
      · rw [hz]
        exact Bool.not_eq_true _ ▸ hlt
      · exact hy z hz

theorem sortDesc_aux_perm {α : Type} (key : α → ScoreT) (l acc : List α) :
    List.Perm (l.foldl (fun a x => insDesc key x a) acc) (acc ++ l) := by
  induction l generalizing acc with
  | nil => simp
  | cons x xs ih =>
    simp only [List.foldl_cons]
    have h1 := ih (insDesc key x acc)
    have h2 : List.Perm (insDesc key x acc ++ xs) ((x :: acc) ++ xs) :=
      List.Perm.append_right xs (insDesc_perm key x acc)
    have h3 : List.Perm ((x :: acc) ++ xs) (acc ++ x :: xs) :=
      List.perm_middle.symm
    exact (h1.trans h2).trans h3

/-- The embedded sort is a permutation of its input. -/
theorem sortDesc_perm {α : Type} (key : α → ScoreT) (l : List α) :
    List.Perm (sortDesc key l) l := by
  simpa using sortDesc_aux_perm key l []

theorem sortDesc_aux_pairwise {α : Type} (key : α → ScoreT) (l acc : List α)
    (hacc : List.Pairwise (fun a b => scoreLt (key a) (key b) = false) acc) :
    List.Pairwise (fun a b => scoreLt (key a) (key b) = false)
      (l.foldl (fun a x => insDesc key x a) acc) := by
  induction l generalizing acc with
  | nil => simpa using hacc
  | cons x xs ih =>
    simp only [List.foldl_cons]
    exact ih (insDesc key x acc) (insDesc_pairwise hacc)

/-- The embedded sort is sorted descending by key: no earlier element has a
strictly smaller score tuple than a later one. -/
theorem sortDesc_pairwise {α : Type} (key : α → ScoreT) (l : List α) :
    List.Pairwise (fun a b => scoreLt (key a) (key b) = false) (sortDesc key l) :=
  sortDesc_aux_pairwise key l [] (List.Pairwise.nil)

/-! ## `storage.py`: the removable-storage target resolver -/

/-- A raw `rm` / `hotplug` JSON value from `lsblk -J`, which may be a
boolean, an integer, a string, or `null` depending on the lsblk version. -/
inductive RmVal : Type where
  | b : Bool → RmVal
  | i : Int → RmVal
  | s : String → RmVal
  | null : RmVal
deriving Repr, DecidableEq

/-- `rm is True or rm == 1 or str(rm).lower() == "true"` (note that in
Python `True == 1`, and `str(None).lower() == "none"`). -/
def is_removable_rm : RmVal → Bool
  | .b v => v
  | .i v => v == 1
  | .s v => pyLower v == "true"
  | .null => false

/-- The fields of one `lsblk` device node that the program reads
(`NAME,KNAME,PATH,TRAN,RM,HOTPLUG,MOUNTPOINT,FSTYPE,LABEL,SIZE`). -/
structure NodeInfo where
  name : Option String
  kname : Option String
  path : Option String
  tran : Option String
  rm : RmVal
  hotplug : RmVal
  mountpoint : Option String
  fstype : Option String
  label : Option String
  size : Option String
deriving Repr, DecidableEq

/-- One node of the `lsblk -J` block-device tree: its fields plus its
`children` partitions. -/
inductive LsblkNode : Type where
  | mk : NodeInfo → List LsblkNode → LsblkNode
deriving Repr

mutual

/-- `_flatten_lsblk`'s `walk`: depth-first, parent before children. -/
def flattenNode : LsblkNode → List NodeInfo
  | .mk f cs => f :: flattenForest cs

/-- `_flatten_lsblk` over a list of sibling nodes, preserving order. -/
def flattenForest : List LsblkNode → List NodeInfo
  | [] => []
  | n :: ns => flattenNode n ++ flattenForest ns

end

/-- `UsbTarget` dataclass: note that the `mountpoint` field holds the
candidate recordings directory, i.e. the real mountpoint with the
recordings subdirectory name already appended. -/
structure UsbTarget where
  mountpoint : String
  device : Option String
  fstype : Option String
  label : Option String
deriving Repr, DecidableEq

/-- The per-node filter of the candidate loop in `find_usb_mount_targets`:
skip when no mountpoint is reported; accept only USB transport, or
removable and not the `mmc` transport; skip the filesystem root `/` and
any mountpoint under `/boot`. -/
def accept_node (n : NodeInfo) : Bool :=
  match n.mountpoint with
  | none => false
  | some mp =>
    if mp == "" then false
    else
      let tran := pyLower (n.tran.getD "")
      let is_removable := is_removable_rm n.rm
      let is_usbish := tran == "usb" || (is_removable && !(tran == "mmc"))
      if !is_usbish then false
      else if mp == "/" then false
      else if strStarts mp "/boot" then false
      else true

/-- The candidate directory built from a node: `mountpoint / recordings_dir_name`. -/
def node_target (n : NodeInfo) (recordings_dir_name : String) : String :=
  joinPath (n.mountpoint.getD "") recordings_dir_name

/-- The `UsbTarget` record built from an accepted node. -/
def node_to_target (n : NodeInfo) (recordings_dir_name : String) : UsbTarget :=
  { mountpoint := node_target n recordings_dir_name
    device := pyOr n.path n.kname
    fstype := n.fstype
    label := n.label }

/-- The `score` closure of `find_usb_mount_targets`: upper-cased label,
preferred flag 1 when it starts with a configured prefix, then the label
and the stored mountpoint text as tie-breakers. -/
def score_of (prefer_label_prefixes : List String) (t : UsbTarget) : ScoreT :=
  let label := pyUpper (t.label.getD "")
  { pref := if prefer_label_prefixes.any (fun p => strStarts label p) then 1 else 0
    label := label
    mount := t.mountpoint }

/-- The enumeration core of `find_usb_mount_targets` after the `lsblk`
tree has been flattened: filter the nodes, probe writability of each
candidate directory (the `writable` oracle models `_is_writable_dir`),
and sort descending by score. -/
def find_usb_mount_targets_core (nodes : List NodeInfo) (writable : String → Bool)
    (recordings_dir_name : String) (prefer_label_prefixes : List String) :
    List UsbTarget :=
  let candidates := nodes.filterMap (fun n =>
    if accept_node n && writable (node_target n recordings_dir_name) then
      some (node_to_target n recordings_dir_name)
    else none)
  sortDesc (score_of prefer_label_prefixes) candidates

/-- A failure of the `lsblk` collaborator call: binary missing, non-zero
exit status (`check=True`), or output `json.loads` cannot parse. -/
inductive LsblkError : Type where
  | toolMissing : LsblkError
  | nonZeroExit : LsblkError
  | badJson : LsblkError
deriving Repr, DecidableEq

/-- `find_usb_mount_targets`: the `SLITCAM_STORAGE_DIR` override (a
non-empty value bypasses enumeration and yields one synthetic target,
with `Path.expanduser` modelled as the identity on the already-expanded
paths considered here); otherwise the `lsblk` call, degrading to `[]` on
any collaborator failure, then flattening, filtering and sorting. -/
def find_usb_mount_targets (override : Option String)
    (lsblk : Except LsblkError (List LsblkNode)) (writable : String → Bool)
    (recordings_dir_name : String) (prefer_label_prefixes : List String) :
    List UsbTarget :=
  if pyTruthy override then
    [{ mountpoint := joinPath (override.getD "") recordings_dir_name
       device := none
       fstype := none
       label := none }]
  else
    match lsblk with
    | .error _ => []
    | .ok forest =>
      find_usb_mount_targets_core (flattenForest forest) writable
        recordings_dir_name prefer_label_prefixes

/-- `choose_usb_target`: `targets[0] if targets else None`. -/
def choose_usb_target (override : Option String)
    (lsblk : Except LsblkError (List LsblkNode)) (writable : String → Bool)
    (recordings_dir_name : String) (prefer_label_prefixes : List String) :
    Option UsbTarget :=
  match find_usb_mount_targets override lsblk writable recordings_dir_name
      prefer_label_prefixes with
  | [] => none
  | t :: _ => some t

/-- The default `recordings_dir_name` argument of `find_usb_mount_targets`. -/
def default_recordings_dir_name : String := "slitlamp-recordings"

/-- The default `prefer_label_prefixes` argument of `find_usb_mount_targets`. -/
def default_prefer_label_prefixes : List String := ["SLITLAMP", "SLITLAMP_"]

/-! ## `camera.py`: the capture-process controller -/

/-- The behaviour of one capture process, as `stop_recording` can observe
it: whether `poll()` already reports an exit, and how long after each
signal the process would take to exit (`none` = it would not exit on that
signal alone). -/
structure CaptureProc where
  exited : Bool
  sigint_exit_time : Option Nat
  sigterm_exit_time : Option Nat
deriving Repr, DecidableEq

/-- The signals `stop_recording` can send. -/
inductive StopAct : Type where
  | sigint : StopAct
  | sigterm : StopAct
  | kill : StopAct
deriving Repr, DecidableEq

/-- `proc.wait(timeout=timeout)`: true when the process exits within the
timeout, false when `TimeoutExpired` is raised. -/
def wait_exits (timeout : Nat) : Option Nat → Bool
  | some t => decide (t ≤ timeout)
  | none => false

/-- `stop_recording(proc, timeout)`: early return when the process has
already exited; otherwise SIGINT then `wait(timeout)`; on
`TimeoutExpired`, `terminate()` then `wait(timeout)`; on a second
`TimeoutExpired`, `kill()` then an unconditional `wait()`. Returns the
list of signals sent and whether the process has exited on return. -/
def stop_recording (proc : CaptureProc) (timeout : Nat) : List StopAct × Bool :=
  if proc.exited then ([], true)
  else if wait_exits timeout proc.sigint_exit_time then ([StopAct.sigint], true)
  else if wait_exits timeout proc.sigterm_exit_time then
    ([StopAct.sigint, StopAct.sigterm], true)
  else ([StopAct.sigint, StopAct.sigterm, StopAct.kill], true)

/-- `convert_to_mp4`'s output path: `h264_path.with_suffix(".mp4")`. -/
def mp4_path_of (h264_path : String) : String := withSuffix h264_path ".mp4"

/-! ## `gpio_io.py`: the latching-button abstraction -/

/-- A button edge: the pure result of comparing the previous level with
the current one. -/
inductive ButtonEdge : Type where
  | pressed : ButtonEdge
  | released : ButtonEdge
deriving Repr, DecidableEq

/-- `LatchingButton.poll`, reduced to its pure core: given the stored
`_last_state` and the current level, the new `_last_state` and the edge
dispatched (callbacks fire only on a change, and the very first poll just
records the level). -/
def button_poll (last : Option Bool) (level : Bool) : Option Bool × Option ButtonEdge :=
  match last with
  | none => (some level, none)
  | some prev =>
    if level = prev then (some level, none)
    else (some level, some (if level then ButtonEdge.pressed else ButtonEdge.released))

/-- `LatchingButton.check_initial_state`, reduced to its pure core: record
the current level as the new `_last_state`, fire `on_pressed` (exactly
once) when the level is high, never fire `on_released`, and return
whether the button was pressed. -/
def check_initial_state (level : Bool) : Option Bool × List ButtonEdge × Bool :=
  (some level, if level then [ButtonEdge.pressed] else [], level)

/-! ## `recorder.py` / `cli.py`: the recording service state machine -/

/-- The world outside the service: a counter allocating fresh OS process
ids, and the list of capture processes the service has spawned that are
still alive (for such a process `poll()` returns `None`). -/
structure World where
  nextId : Nat
  live : List Nat
deriving Repr, DecidableEq

/-- The immutable environment of a `RecordingService` instance: its
`output_dir` and the filesystem oracle behind `Path.exists`. -/
structure RecConfig where
  output_dir : String
  fileExists : String → Bool

/-- The mutable state of a `RecordingService` instance (`_proc`,
`_current_h264`, `_running`, and the button's `_last_state`), together
with the world of spawned processes. -/
structure SysState where
  world : World
  proc : Option Nat
  current_h264 : Option String
  running : Bool
  btn_last : Option Bool
deriving Repr, DecidableEq

/-- Observable actions the service emits: status messages, process
starts (successful or failed), process stops, and `.h264`-to-`.mp4`
conversions. -/
inductive RecAct : Type where
  | status : String → RecAct
  | startProc : String → Nat → RecAct
  | startFailed : String → RecAct
  | stopProc : Nat → RecAct
  | convert : String → String → RecAct
deriving Repr, DecidableEq

/-- `self._proc is not None and self._proc.poll() is None`. -/
def procAlive (w : World) (p : Option Nat) : Bool :=
  match p with
  | none => false
  | some pid => w.live.contains pid

/-- The timestamped output path allocated on a press edge:
`output_dir / f"rec_{timestamp}.h264"`. -/
def record_path (output_dir ts : String) : String :=
  joinPath output_dir ("rec_" ++ ts ++ ".h264")

/-- `RecordingService._on_button_pressed`: no-op (diagnostic only) while a
live process is stored; otherwise allocate the timestamped path and start
a capture process (`start_ok` is the oracle for whether
`start_recording` succeeds); on failure clear both `_proc` and
`_current_h264`. -/
def on_button_pressed (cfg : RecConfig) (start_ok : Bool) (ts : String)
    (st : SysState) : SysState × List RecAct :=
  if procAlive st.world st.proc then
    (st, [RecAct.status "Already recording, ignoring press"])
  else
    let path := record_path cfg.output_dir ts
    if start_ok then
      let pid := st.world.nextId
      ({ st with
          world := { nextId := pid + 1, live := st.world.live ++ [pid] }
          proc := some pid
          current_h264 := some path },
        [RecAct.status ("START -> " ++ path), RecAct.startProc path pid])
    else
      ({ st with proc := none, current_h264 := none },
        [RecAct.status ("START -> " ++ path), RecAct.startFailed path])

/-- `RecordingService._on_button_released`: no-op (diagnostic only) when
no live process is stored; otherwise stop the process (after
`stop_recording` it has exited), clear `_proc`, convert the stored
`.h264` to `.mp4` when the file exists, and clear `_current_h264`. -/
def on_button_released (cfg : RecConfig) (st : SysState) : SysState × List RecAct :=
  match st.proc with
  | none => (st, [RecAct.status "Not recording, ignoring release"])
  | some pid =>
    if st.world.live.contains pid then
      let st1 : SysState :=
        { st with world := { st.world with live := st.world.live.erase pid }
                  proc := none }
      let stopActs := [RecAct.status "STOP...", RecAct.stopProc pid]
      match st.current_h264 with
      | some h =>
        if cfg.fileExists h then
          ({ st1 with current_h264 := none },
            stopActs ++ [RecAct.convert h (mp4_path_of h)])
        else ({ st1 with current_h264 := none }, stopActs)
      | none => ({ st1 with current_h264 := none }, stopActs)
    else (st, [RecAct.status "Not recording, ignoring release"])

/-- `RecordingService._handle_shutdown`: report and flip the cooperative
`_running` flag; nothing else. -/
def handle_shutdown (st : SysState) : SysState × List RecAct :=
  ({ st with running := false }, [RecAct.status "Received signal, shutting down..."])

/-- Dispatch one detected edge to the matching callback. -/
def dispatch_edge (cfg : RecConfig) (start_ok : Bool) (ts : String) (st : SysState) :
    ButtonEdge → SysState × List RecAct
  | .pressed => on_button_pressed cfg start_ok ts st
  | .released => on_button_released cfg st

/-- One external event during the service's life: a poll tick (with the
sampled button level and the oracles for a potential start), a capture
process exiting on its own, or a shutdown signal. -/
inductive RecEvent : Type where
  | tick : Bool → Bool → String → RecEvent
  | procExit : Nat → RecEvent
  | sigShutdown : RecEvent
deriving Repr, DecidableEq

/-- One step of the service: a tick polls the button and dispatches the
edge (ticks no longer occur once `_running` is false and the loop has
exited); a spontaneous process exit removes the process from the live
set; a shutdown signal runs `_handle_shutdown`. -/
def service_step (cfg : RecConfig) (st : SysState) : RecEvent → SysState × List RecAct
  | .tick level start_ok ts =>
    if st.running then
      match button_poll st.btn_last level with
      | (last1, none) => ({ st with btn_last := last1 }, [])
      | (last1, some e) => dispatch_edge cfg start_ok ts { st with btn_last := last1 } e
    else (st, [])
  | .procExit pid =>
    ({ st with world := { st.world with live := st.world.live.erase pid } }, [])
  | .sigShutdown => handle_shutdown st

/-- Process a list of events in order, accumulating the emitted actions. -/
def run_events (cfg : RecConfig) : SysState → List RecEvent → SysState × List RecAct
  | st, [] => (st, [])
  | st, e :: es =>
    let p1 := service_step cfg st e
    let p2 := run_events cfg p1.1 es
    (p2.1, p1.2 ++ p2.2)

/-- The `finally` block of `RecordingService.run`: when a live process is
still stored, force the `Recording -> Idle` transition via
`_on_button_released`. -/
def service_teardown (cfg : RecConfig) (st : SysState) : SysState × List RecAct :=
  if procAlive st.world st.proc then
    let p := on_button_released cfg st
    (p.1, RecAct.status "Stopping active recording..." :: p.2)
  else (st, [])

/-- Service construction plus the prologue of `run`: fresh state, then
`check_initial_state` records the baseline level and fires the pressed
callback when the button is already on, then `_running := True`. -/
def service_init (cfg : RecConfig) (level0 start_ok0 : Bool) (ts0 : String) :
    SysState × List RecAct :=
  let st0 : SysState :=
    { world := { nextId := 0, live := [] }
      proc := none
      current_h264 := none
      running := false
      btn_last := none }
  let ci := check_initial_state level0
  let st1 := { st0 with btn_last := ci.1 }
  let p := ci.2.1.foldl
    (fun (acc : SysState × List RecAct) e =>
      let q := dispatch_edge cfg start_ok0 ts0 acc.1 e
      (q.1, acc.2 ++ q.2))
    (st1, [])
  ({ p.1 with running := true }, p.2)

/-- `RecordingService.run` end to end: init (including the initial-state
check), the polling loop over the given events, then teardown. -/
def run_service (cfg : RecConfig) (level0 start_ok0 : Bool) (ts0 : String)
    (evs : List RecEvent) : SysState × List RecAct :=
  let p1 := service_init cfg level0 start_ok0 ts0
  let p2 := run_events cfg p1.1 evs
  let p3 := service_teardown cfg p2.1
  (p3.1, p1.2 ++ p2.2 ++ p3.2)

/-- `cli.RECORDINGS_SUBDIR` (note the underscore spelling, distinct from
the hyphenated `slitlamp-recordings` default inside `storage.py`). -/
def RECORDINGS_SUBDIR : String := "slitlamp_recordings"

/-- `_cmd_record_service`'s output directory:
`Path(target.mountpoint) / RECORDINGS_SUBDIR`. -/
def record_service_output_dir (t : UsbTarget) : String :=
  joinPath t.mountpoint RECORDINGS_SUBDIR

/-! ## The single-session invariant of the recording service -/

/-- Service invariant: the live spawned processes carry no duplicates,
every live process is exactly the one stored in `_proc`, and every live
process id was allocated below the id counter. -/
def RecInv (st : SysState) : Prop :=
  st.world.live.Nodup ∧
  (∀ pid ∈ st.world.live, st.proc = some pid) ∧
  (∀ pid ∈ st.world.live, pid < st.world.nextId)

theorem contains_true_iff (l : List Nat) (a : Nat) : l.contains a = true ↔ a ∈ l :=
  List.elem_iff

theorem contains_false_iff (l : List Nat) (a : Nat) : l.contains a = false ↔ a ∉ l := by
  rw [← Bool.not_eq_true, contains_true_iff]

theorem live_nil_of_not_alive {st : SysState} (hinv : RecInv st)
    (hna : procAlive st.world st.proc = false) : st.world.live = [] := by
  obtain ⟨-, h2, -⟩ := hinv
  cases hl : st.world.live with
  | nil => rfl
  | cons a rest =>
    have ha : a ∈ st.world.live := by
      rw [hl]
      exact List.mem_cons_self a rest
    have hp := h2 a ha
    rw [hp] at hna
    exact absurd ha ((contains_false_iff _ _).mp hna)

theorem live_single_of_alive {st : SysState} {pid : Nat} (hinv : RecInv st)
    (hp : st.proc = some pid) (hin : pid ∈ st.world.live) :
    st.world.live = [pid] := by
  obtain ⟨h1, h2, -⟩ := hinv
  have hall : ∀ q ∈ st.world.live, q = pid := by
    intro q hq
    have := h2 q hq
    rw [hp] at this
    exact (Option.some_inj.mp this).symm
  cases hl : st.world.live with
  | nil =>
    rw [hl] at hin
    exact absurd hin (List.not_mem_nil pid)
  | cons a rest =>
    have haeq : a = pid := hall a (by rw [hl]; exact List.mem_cons_self a rest)
    have hrest : rest = [] := by
      rw [List.eq_nil_iff_forall_not_mem]
      intro q hq
      have hqa : q = pid := hall q (by rw [hl]; exact List.mem_cons_of_mem a hq)
      rw [hl] at h1
      have := (List.pairwise_cons.mp h1).1 q hq
      exact this ((hqa.trans haeq.symm).symm)
    rw [haeq, hrest]

theorem procAlive_of_some_mem {st : SysState} {pid : Nat} (hp : st.proc = some pid)
    (hin : pid ∈ st.world.live) : procAlive st.world st.proc = true := by
  rw [hp]
  exact (contains_true_iff _ _).mpr hin

/-- A pressed edge while the stored process is alive is a pure no-op with
one diagnostic message. -/
theorem on_button_pressed_of_alive {cfg : RecConfig} {ok : Bool} {ts : String}
    {st : SysState} (h : procAlive st.world st.proc = true) :
    on_button_pressed cfg ok ts st =
      (st, [RecAct.status "Already recording, ignoring press"]) := by
  simp [on_button_pressed, h]

theorem on_button_pressed_start {cfg : RecConfig} {ts : String} {st : SysState}
    (h : procAlive st.world st.proc = false) :
    on_button_pressed cfg true ts st =
      ({ st with
          world := { nextId := st.world.nextId + 1
                     live := st.world.live ++ [st.world.nextId] }
          proc := some st.world.nextId
          current_h264 := some (record_path cfg.output_dir ts) },
        [RecAct.status ("START -> " ++ record_path cfg.output_dir ts),
         RecAct.startProc (record_path cfg.output_dir ts) st.world.nextId]) := by
  simp [on_button_pressed, h]

theorem on_button_pressed_fail {cfg : RecConfig} {ts : String} {st : SysState}
    (h : procAlive st.world st.proc = false) :
    on_button_pressed cfg false ts st =
      ({ st with proc := none, current_h264 := none },
        [RecAct.status ("START -> " ++ record_path cfg.output_dir ts),
         RecAct.startFailed (record_path cfg.output_dir ts)]) := by
  simp [on_button_pressed, h]

theorem on_button_released_none {cfg : RecConfig} {st : SysState}
    (h : st.proc = none) :
    on_button_released cfg st = (st, [RecAct.status "Not recording, ignoring release"]) := by
  unfold on_button_released
  rw [h]

theorem on_button_released_dead {cfg : RecConfig} {st : SysState} {pid : Nat}
    (hp : st.proc = some pid) (hd : st.world.live.contains pid = false) :
    on_button_released cfg st = (st, [RecAct.status "Not recording, ignoring release"]) := by
  have hd1 : pid ∉ st.world.live := (contains_false_iff _ _).mp hd
  unfold on_button_released
  rw [hp]
  simp [hd1]

theorem on_button_released_live_state {cfg : RecConfig} {st : SysState} {pid : Nat}
    (hp : st.proc = some pid) (hl : st.world.live.contains pid = true) :
    (on_button_released cfg st).1 =
      { st with world := { st.world with live := st.world.live.erase pid }
                proc := none
                current_h264 := none } := by
  unfold on_button_released
  rw [hp]
  simp only [hl, if_true]
  cases hc : st.current_h264 with
  | none => rfl
  | some h => by_cases he : cfg.fileExists h = true <;> simp [he]

theorem recInv_pressed (cfg : RecConfig) (ok : Bool) (ts : String) {st : SysState}
    (hinv : RecInv st) : RecInv (on_button_pressed cfg ok ts st).1 := by
  by_cases ha : procAlive st.world st.proc = true
  · rw [on_button_pressed_of_alive ha]
    exact hinv
  · have hna : procAlive st.world st.proc = false := Bool.not_eq_true _ ▸ ha
    have hnil := live_nil_of_not_alive hinv hna
    cases ok with
    | true =>
      rw [on_button_pressed_start hna]
      refine ⟨?_, ?_, ?_⟩
      · rw [hnil]
        simp
      · intro pid hpid
        rw [hnil] at hpid
        simp at hpid
        rw [hpid]
      · intro pid hpid
        rw [hnil] at hpid
        simp at hpid
        simp [hpid]
    | false =>
      rw [on_button_pressed_fail hna]
      refine ⟨hinv.1, ?_, hinv.2.2⟩
      intro pid hpid
      rw [hnil] at hpid
      exact absurd hpid (List.not_mem_nil pid)

theorem recInv_released (cfg : RecConfig) {st : SysState}
    (hinv : RecInv st) : RecInv (on_button_released cfg st).1 := by
  cases hp : st.proc with
  | none =>
    rw [on_button_released_none hp]
    exact hinv
  | some pid =>
    by_cases hl : st.world.live.contains pid = true
    · rw [on_button_released_live_state hp hl]
      have hone : st.world.live = [pid] := by
        refine live_single_of_alive hinv hp ?_
        exact (contains_true_iff _ _).mp hl
      refine ⟨?_, ?_, ?_⟩ <;> rw [hone] <;> simp
    · have hd : st.world.live.contains pid = false := Bool.not_eq_true _ ▸ hl
      rw [on_button_released_dead hp hd]
      exact hinv

theorem recInv_step (cfg : RecConfig) (e : RecEvent) {st : SysState}
    (hinv : RecInv st) : RecInv (service_step cfg st e).1 := by
  cases e with
  | tick level ok ts =>
    by_cases hr : st.running = true
    · simp only [service_step, hr, if_true]
      cases hb : button_poll st.btn_last level with
      | mk last1 edge =>
        cases edge with
        | none =>
          exact ⟨hinv.1, hinv.2.1, hinv.2.2⟩
        | some e =>
          cases e with
          | pressed => exact recInv_pressed cfg ok ts ⟨hinv.1, hinv.2.1, hinv.2.2⟩
          | released => exact recInv_released cfg ⟨hinv.1, hinv.2.1, hinv.2.2⟩
    · simp only [service_step, Bool.not_eq_true _ ▸ hr]
      simpa using hinv
  | procExit pid =>
    refine ⟨hinv.1.erase pid, ?_, ?_⟩
    · intro q hq
      exact hinv.2.1 q (List.mem_of_mem_erase hq)
    · intro q hq
      exact hinv.2.2 q (List.mem_of_mem_erase hq)
  | sigShutdown =>
    exact ⟨hinv.1, hinv.2.1, hinv.2.2⟩

theorem recInv_run_events (cfg : RecConfig) (evs : List RecEvent) {st : SysState}
    (hinv : RecInv st) : RecInv (run_events cfg st evs).1 := by
  induction evs generalizing st with
  | nil => exact hinv
  | cons e es ih =>
    simp only [run_events]
    exact ih (recInv_step cfg e hinv)

theorem recInv_init (cfg : RecConfig) (level0 start_ok0 : Bool) (ts0 : String) :
    RecInv (service_init cfg level0 start_ok0 ts0).1 := by
  have hbase : ∀ (r : Bool) (b : Option Bool), RecInv
      { world := { nextId := 0, live := [] }, proc := none, current_h264 := none,
        running := r, btn_last := b } := by
    intro r b
    refine ⟨List.nodup_nil, ?_, ?_⟩ <;> intro pid hpid <;>
      exact absurd hpid (List.not_mem_nil pid)
  cases level0 with
  | false => exact hbase true (some false)
  | true =>
    have h := recInv_pressed cfg start_ok0 ts0 (hbase false (some true))
    exact ⟨h.1, h.2.1, h.2.2⟩

theorem live_length_le_one {st : SysState} (hinv : RecInv st) :
    st.world.live.length ≤ 1 := by
  cases hp : st.proc with
  | none =>
    have : st.world.live = [] := by
      refine live_nil_of_not_alive hinv ?_
      rw [hp]
      rfl
    rw [this]
    simp
  | some pid =>
    by_cases hin : pid ∈ st.world.live
    · rw [live_single_of_alive hinv hp hin]
      simp
    · have : st.world.live = [] := by
        refine live_nil_of_not_alive hinv ?_
        rw [hp]
        exact (contains_false_iff _ _).mpr hin
      rw [this]
      simp

theorem teardown_live_nil (cfg : RecConfig) {st : SysState} (hinv : RecInv st) :
    (service_teardown cfg st).1.world.live = [] := by
  by_cases ha : procAlive st.world st.proc = true
  · cases hp : st.proc with
    | none => simp [procAlive, hp] at ha
    | some pid =>
      have hl : st.world.live.contains pid = true := by
        rw [hp] at ha
        exact ha
      have hone : st.world.live = [pid] := by
        refine live_single_of_alive hinv hp ?_
        exact (contains_true_iff _ _).mp hl
      simp only [service_teardown, ha, if_true]
      rw [on_button_released_live_state hp hl]
      rw [hone]
      simp
  · have hna : procAlive st.world st.proc = false := Bool.not_eq_true _ ▸ ha
    simp only [service_teardown, hna]
    simpa using live_nil_of_not_alive hinv hna

/-! ## Concrete fixtures for the spec's worked examples -/

/-- A USB-transport partition node mounted at `mp` with label `lbl`. -/
def demo_node (mp lbl : String) : NodeInfo :=
  { name := none, kname := none, path := none, tran := some "usb", rm := RmVal.b false,
    hotplug := RmVal.null, mountpoint := some mp, fstype := some "vfat",
    label := some lbl, size := none }

/-- The spec's resolver-ordering example: candidates labelled OTHER,
SLITLAMP_B, SLITLAMP_A, in collaborator order. -/
def demo_nodes : List NodeInfo :=
  [demo_node "/media/usb0" "OTHER", demo_node "/media/usb1" "SLITLAMP_B",
   demo_node "/media/usb2" "SLITLAMP_A"]

/-! ## The claims -/

/-- C1. The spec says a recording is persisted at
`<target-mount>/<recordings-subdir>/rec_<ts>.h264` — exactly one
recordings subdirectory between the mount point and the file. The code
instead nests two: `find_usb_mount_targets` already appends
`slitlamp-recordings` to the mountpoint stored in `UsbTarget.mountpoint`,
and `_cmd_record_service` appends a second, differently spelled
`slitlamp_recordings` before building the output path. With the storage
override `/tmp/usb`, the recording lands at
`/tmp/usb/slitlamp-recordings/slitlamp_recordings/rec_20250101_120000.h264`,
which is neither of the one-subdirectory layouts; the finalized `.mp4`
does share the stem. -/
theorem record_layout_two_subdirectories :
    choose_usb_target (some "/tmp/usb") (Except.ok []) (fun _ => true)
        default_recordings_dir_name default_prefer_label_prefixes =
      some { mountpoint := "/tmp/usb/slitlamp-recordings", device := none,
             fstype := none, label := none }
    ∧ record_service_output_dir
        { mountpoint := "/tmp/usb/slitlamp-recordings", device := none,
          fstype := none, label := none } =
      "/tmp/usb/slitlamp-recordings/slitlamp_recordings"
    ∧ record_path "/tmp/usb/slitlamp-recordings/slitlamp_recordings" "20250101_120000" =
      "/tmp/usb/slitlamp-recordings/slitlamp_recordings/rec_20250101_120000.h264"
    ∧ mp4_path_of
        "/tmp/usb/slitlamp-recordings/slitlamp_recordings/rec_20250101_120000.h264" =
      "/tmp/usb/slitlamp-recordings/slitlamp_recordings/rec_20250101_120000.mp4"
    ∧ ((("/tmp/usb/slitlamp-recordings/slitlamp_recordings/rec_20250101_120000.h264" : String) ==
        record_path (joinPath "/tmp/usb" default_recordings_dir_name) "20250101_120000") = false)
    ∧ ((("/tmp/usb/slitlamp-recordings/slitlamp_recordings/rec_20250101_120000.h264" : String) ==
        record_path (joinPath "/tmp/usb" RECORDINGS_SUBDIR) "20250101_120000") = false) := by
  refine ⟨by decide, by decide, by decide, by decide, by decide, by decide⟩

/-- C2. At most one live recording session exists at any time: after the
service has processed any finite prefix of events, at most one spawned
capture process is alive; and a Pressed edge that arrives while the
stored process is still alive is a pure no-op that emits only the
diagnostic message (no second process is started). -/
theorem at_most_one_live_session (cfg : RecConfig) (level0 start_ok0 : Bool)
    (ts0 : String) (evs : List RecEvent) :
    (run_events cfg (service_init cfg level0 start_ok0 ts0).1 evs).1.world.live.length ≤ 1
    ∧ ∀ st : SysState, procAlive st.world st.proc = true → ∀ (ok : Bool) (ts : String),
        on_button_pressed cfg ok ts st =
          (st, [RecAct.status "Already recording, ignoring press"]) := by
  refine ⟨?_, ?_⟩
  · exact live_length_le_one (recInv_run_events cfg evs (recInv_init cfg level0 start_ok0 ts0))
  · intro st h ok ts
    exact on_button_pressed_of_alive h

theorem at_most_one_live_session_witness :
    on_button_pressed { output_dir := "/out", fileExists := fun _ => true } true
        "20250101_120000"
        { world := { nextId := 1, live := [0] }, proc := some 0,
          current_h264 := some "/out/rec_x.h264", running := true, btn_last := some true } =
      ({ world := { nextId := 1, live := [0] }, proc := some 0,
          current_h264 := some "/out/rec_x.h264", running := true, btn_last := some true },
        [RecAct.status "Already recording, ignoring press"]) :=
  (at_most_one_live_session { output_dir := "/out", fileExists := fun _ => true }
      false false "" []).2
    { world := { nextId := 1, live := [0] }, proc := some 0,
      current_h264 := some "/out/rec_x.h264", running := true, btn_last := some true }
    rfl true "20250101_120000"

/-- C3. `stop_recording` follows the three-tier escalation: no-op when
the process has already exited; otherwise SIGINT, and if the process does
not exit within the timeout, SIGTERM, and if it still does not exit
within a second timeout, a kill followed by an unconditional wait; in
every case the call returns only once the process has exited. -/
theorem stop_recording_escalation (p : CaptureProc) (timeout : Nat) :
    (stop_recording p timeout).2 = true
    ∧ (p.exited = true → stop_recording p timeout = ([], true))
    ∧ (p.exited = false → wait_exits timeout p.sigint_exit_time = true →
        (stop_recording p timeout).1 = [StopAct.sigint])
    ∧ (p.exited = false → wait_exits timeout p.sigint_exit_time = false →
        wait_exits timeout p.sigterm_exit_time = true →
        (stop_recording p timeout).1 = [StopAct.sigint, StopAct.sigterm])
    ∧ (p.exited = false → wait_exits timeout p.sigint_exit_time = false →
        wait_exits timeout p.sigterm_exit_time = false →
        (stop_recording p timeout).1 = [StopAct.sigint, StopAct.sigterm, StopAct.kill]) := by
  unfold stop_recording
  by_cases h1 : p.exited = true <;>
    by_cases h2 : wait_exits timeout p.sigint_exit_time = true <;>
    by_cases h3 : wait_exits timeout p.sigterm_exit_time = true <;>
    simp [h1, h2, h3]

theorem stop_recording_escalation_witness :
    stop_recording { exited := true, sigint_exit_time := none, sigterm_exit_time := none } 5 =
      ([], true)
    ∧ (stop_recording
        { exited := false, sigint_exit_time := some 3, sigterm_exit_time := none } 5).1 =
      [StopAct.sigint]
    ∧ (stop_recording
        { exited := false, sigint_exit_time := none, sigterm_exit_time := some 4 } 5).1 =
      [StopAct.sigint, StopAct.sigterm]
    ∧ (stop_recording
        { exited := false, sigint_exit_time := none, sigterm_exit_time := none } 5).1 =
      [StopAct.sigint, StopAct.sigterm, StopAct.kill] :=
  ⟨(stop_recording_escalation _ 5).2.1 rfl,
   (stop_recording_escalation _ 5).2.2.1 rfl rfl,
   (stop_recording_escalation _ 5).2.2.2.1 rfl rfl rfl,
   (stop_recording_escalation _ 5).2.2.2.2 rfl rfl rfl⟩

/-- C4. The resolver sorts the surviving candidates descending by the
tuple (preferred-label-flag, label, mountpoint): the output is a
permutation of the filtered candidates in which no earlier element has a
smaller score; on the spec's example (labels OTHER, SLITLAMP_B,
SLITLAMP_A with preferred prefix SLITLAMP) the output order is
SLITLAMP_B, SLITLAMP_A, OTHER; and `choose_usb_target` returns the first
element of the enumeration, or none when it is empty. -/
theorem resolver_ordering :
    (∀ (nodes : List NodeInfo) (writable : String → Bool) (rdn : String)
        (pfx : List String),
      List.Pairwise (fun a b => scoreLt (score_of pfx a) (score_of pfx b) = false)
        (find_usb_mount_targets_core nodes writable rdn pfx)
      ∧ List.Perm (find_usb_mount_targets_core nodes writable rdn pfx)
          (nodes.filterMap (fun n =>
            if accept_node n && writable (node_target n rdn) then
              some (node_to_target n rdn)
            else none)))
    ∧ ((find_usb_mount_targets_core demo_nodes (fun _ => true)
          default_recordings_dir_name default_prefer_label_prefixes).map UsbTarget.label =
        [some "SLITLAMP_B", some "SLITLAMP_A", some "OTHER"])
    ∧ (∀ (override : Option String) (lsblk : Except LsblkError (List LsblkNode))
        (writable : String → Bool) (rdn : String) (pfx : List String),
        choose_usb_target override lsblk writable rdn pfx =
          (find_usb_mount_targets override lsblk writable rdn pfx).head?) := by
  refine ⟨?_, by decide, ?_⟩
  · intro nodes writable rdn pfx
    exact ⟨sortDesc_pairwise _ _, sortDesc_perm _ _⟩
  · intro override lsblk writable rdn pfx
    unfold choose_usb_target
    cases find_usb_mount_targets override lsblk writable rdn pfx with
    | nil => rfl
    | cons t ts => rfl

/-- C5. A device node whose mountpoint is the filesystem root `/` or
begins with `/boot` is rejected by the acceptance filter regardless of
its transport, removable flag or any other field, and every target that
`enumerate()` outputs arises from an accepted (and writable) input node,
so such a node never appears in the output. -/
theorem root_boot_exclusion :
    (∀ (n : NodeInfo) (mp : String), n.mountpoint = some mp →
      (mp = "/" ∨ strStarts mp "/boot" = true) → accept_node n = false)
    ∧ (∀ (nodes : List NodeInfo) (writable : String → Bool) (rdn : String)
        (pfx : List String) (t : UsbTarget),
        t ∈ find_usb_mount_targets_core nodes writable rdn pfx →
        ∃ n, n ∈ nodes ∧ accept_node n = true ∧
          writable (node_target n rdn) = true ∧ t = node_to_target n rdn) := by
  constructor
  · intro n mp hmp hbad
    unfold accept_node
    rw [hmp]
    rcases hbad with hb | hb
    · subst hb
      simp
    · have hne : (mp == "") = false := by
        cases hq : mp == "" with
        | false => rfl
        | true =>
          have hmpe : mp = "" := eq_of_beq hq
          rw [hmpe] at hb
          exact absurd hb (by decide)
      simp [hne, hb]
  · intro nodes writable rdn pfx t ht
    simp only [find_usb_mount_targets_core] at ht
    have ht2 := (sortDesc_perm (score_of pfx) _).mem_iff.mp ht
    rcases List.mem_filterMap.mp ht2 with ⟨n, hn, hf⟩
    by_cases hc : (accept_node n && writable (node_target n rdn)) = true
    · rw [if_pos hc] at hf
      rcases Bool.and_eq_true_iff.mp hc with ⟨hc1, hc2⟩
      exact ⟨n, hn, hc1, hc2, (Option.some_inj.mp hf).symm⟩
    · rw [if_neg hc] at hf
      exact absurd hf (by simp)

theorem root_boot_exclusion_witness :
    accept_node (demo_node "/" "X") = false ∧
    accept_node (demo_node "/boot/firmware" "X") = false :=
  ⟨root_boot_exclusion.1 _ "/" rfl (Or.inl rfl),
   root_boot_exclusion.1 _ "/boot/firmware" rfl (Or.inr (by decide))⟩

/-- C6. `check_initial_state` on an already-pressed input records the
level as the new baseline, fires exactly one Pressed-equivalent
transition and never a Released one, and the immediately following poll
at the same level synthesizes no duplicate edge; in the service, the
forced startup transition takes the fresh instance from Idle into
Recording (process id 0 stored). -/
theorem initial_pressed_single_transition :
    check_initial_state true = (some true, [ButtonEdge.pressed], true)
    ∧ (∀ level : Bool, (check_initial_state level).2.1.count ButtonEdge.released = 0)
    ∧ button_poll (check_initial_state true).1 true = (some true, none)
    ∧ (∀ (cfg : RecConfig) (ts0 : String),
        (service_init cfg true true ts0).1.proc = some 0 ∧
        (service_init cfg true true ts0).1.btn_last = some true)
    ∧ (∀ (cfg : RecConfig) (ts0 : String) (ok2 : Bool) (ts2 : String),
        service_step cfg (service_init cfg true true ts0).1 (RecEvent.tick true ok2 ts2) =
          ((service_init cfg true true ts0).1, [])) := by
  refine ⟨rfl, ?_, rfl, ?_, ?_⟩
  · intro level
    cases level <;> rfl
  · intro cfg ts0
    exact ⟨rfl, rfl⟩
  · intro cfg ts0 ok2 ts2
    rfl

/-- C7. A shutdown signal only flips the cooperative `_running` flag (and
reports), and after the service's run loop returns — teardown forcing a
`Recording -> Idle` transition on any live session — no spawned capture
process is left alive. -/
theorem shutdown_flag_and_no_orphan (cfg : RecConfig) (level0 start_ok0 : Bool)
    (ts0 : String) (evs : List RecEvent) :
    (∀ st : SysState, service_step cfg st RecEvent.sigShutdown =
      ({ st with running := false }, [RecAct.status "Received signal, shutting down..."]))
    ∧ (run_service cfg level0 start_ok0 ts0 evs).1.world.live = [] := by
  refine ⟨fun st => rfl, ?_⟩
  exact teardown_live_nil cfg (recInv_run_events cfg evs (recInv_init cfg level0 start_ok0 ts0))

/-- C8. When `ProcessController.start` fails on the Idle-to-Recording
transition, the service stays in Idle with the session fully cleared (no
stored handle, no stored output path), the world is untouched (no process
spawned), the failure is reported and not retried; starting from a clean
Idle state the state is unchanged, and a subsequent Pressed edge starts
fresh. -/
theorem start_failure_remains_idle (cfg : RecConfig) (ts : String) (st : SysState)
    (hna : procAlive st.world st.proc = false) :
    on_button_pressed cfg false ts st =
      ({ st with proc := none, current_h264 := none },
        [RecAct.status ("START -> " ++ record_path cfg.output_dir ts),
         RecAct.startFailed (record_path cfg.output_dir ts)])
    ∧ (on_button_pressed cfg false ts st).1.world = st.world
    ∧ (on_button_pressed cfg false ts st).1.running = st.running
    ∧ (st.proc = none → st.current_h264 = none →
        (on_button_pressed cfg false ts st).1 = st)
    ∧ (∀ ts2 : String,
        (on_button_pressed cfg true ts2 (on_button_pressed cfg false ts st).1).1.proc =
          some st.world.nextId) := by
  have h := @on_button_pressed_fail cfg ts st hna
  refine ⟨h, by rw [h], by rw [h], ?_, ?_⟩
  · intro hp hc
    rw [h]
    obtain ⟨w, p, c, r, b⟩ := st
    simp only at hp hc
    rw [hp, hc]
  · intro ts2
    rw [h]
    show (on_button_pressed cfg true ts2
        ({ st with proc := none, current_h264 := none })).1.proc = some st.world.nextId
    rw [@on_button_pressed_start cfg ts2
      ({ st with proc := none, current_h264 := none }) rfl]

theorem start_failure_remains_idle_witness :
    (on_button_pressed { output_dir := "/out", fileExists := fun _ => false } false "t"
        { world := { nextId := 0, live := [] }, proc := none, current_h264 := none,
          running := true, btn_last := some true }).1 =
      { world := { nextId := 0, live := [] }, proc := none, current_h264 := none,
        running := true, btn_last := some true } :=
  (start_failure_remains_idle { output_dir := "/out", fileExists := fun _ => false }
      "t"
      { world := { nextId := 0, live := [] }, proc := none, current_h264 := none,
        running := true, btn_last := some true }
      rfl).2.2.2.1 rfl rfl

/-- C9. When the storage-enumeration collaborator fails in any way (tool
missing, non-zero exit, unparseable output) and the override is not set,
`find_usb_mount_targets` returns the empty sequence instead of
propagating the failure. -/
theorem lsblk_failure_yields_empty (override : Option String) (e : LsblkError)
    (writable : String → Bool) (rdn : String) (pfx : List String)
    (hov : pyTruthy override = false) :
    find_usb_mount_targets override (Except.error e) writable rdn pfx = [] := by
  simp [find_usb_mount_targets, hov]

theorem lsblk_failure_yields_empty_witness :
    find_usb_mount_targets none (Except.error LsblkError.toolMissing) (fun _ => true)
      default_recordings_dir_name default_prefer_label_prefixes = []
    ∧ find_usb_mount_targets none (Except.error LsblkError.nonZeroExit) (fun _ => true)
      default_recordings_dir_name default_prefer_label_prefixes = []
    ∧ find_usb_mount_targets none (Except.error LsblkError.badJson) (fun _ => true)
      default_recordings_dir_name default_prefer_label_prefixes = [] :=
  ⟨lsblk_failure_yields_empty none LsblkError.toolMissing (fun _ => true)
      default_recordings_dir_name default_prefer_label_prefixes rfl,
   lsblk_failure_yields_empty none LsblkError.nonZeroExit (fun _ => true)
      default_recordings_dir_name default_prefer_label_prefixes rfl,
   lsblk_failure_yields_empty none LsblkError.badJson (fun _ => true)
      default_recordings_dir_name default_prefer_label_prefixes rfl⟩

/-- C10. If the capture process has exited on its own while the service
is Recording, the next Released edge (and likewise the shutdown teardown)
takes the "not recording" early return: the state is unchanged — in
particular the stored session path stays set — and no stop or conversion
is performed, so that session's `.h264` is never converted; the next
Pressed edge then overwrites the stored path. -/
theorem dead_process_release_ignored (cfg : RecConfig) (st : SysState) (pid : Nat)
    (hp : st.proc = some pid) (hd : st.world.live.contains pid = false) :
    on_button_released cfg st = (st, [RecAct.status "Not recording, ignoring release"])
    ∧ service_teardown cfg st = (st, [])
    ∧ (on_button_released cfg st).1.current_h264 = st.current_h264
    ∧ (∀ ts : String, (on_button_pressed cfg true ts st).1.current_h264 =
        some (record_path cfg.output_dir ts)) := by
  have hrel := @on_button_released_dead cfg st pid hp hd
  have hna : procAlive st.world st.proc = false := by
    rw [hp]
    exact hd
  refine ⟨hrel, ?_, by rw [hrel], ?_⟩
  · unfold service_teardown
    simp [hna]
  · intro ts
    rw [on_button_pressed_start hna]

theorem dead_process_release_ignored_witness :
    on_button_released { output_dir := "/out", fileExists := fun _ => true }
        { world := { nextId := 6, live := [] }, proc := some 5,
          current_h264 := some "/out/rec_a.h264", running := true, btn_last := some false } =
      ({ world := { nextId := 6, live := [] }, proc := some 5,
          current_h264 := some "/out/rec_a.h264", running := true, btn_last := some false },
        [RecAct.status "Not recording, ignoring release"]) :=
  (dead_process_release_ignored { output_dir := "/out", fileExists := fun _ => true }
      { world := { nextId := 6, live := [] }, proc := some 5,
        current_h264 := some "/out/rec_a.h264", running := true, btn_last := some false }
      5 rfl rfl).1

end SlitLampCam
